import Mathlib

/-!
Shallow embedding of the library management application in src/main.py.

The application stores three sqlite tables (books, students, issued_books)
and mutates them from six UI callbacks:
  AddBookFrame.save_book, ViewBooksFrame.save_update,
  ViewBooksFrame.delete_selected, IssueBookFrame.issue_book,
  ReturnBookFrame.return_book, ViewBooksFrame.load_books.
Each callback opens a connection, runs straight-line conditional SQL and
commits, so each is embedded as a pure function on an explicit database
state.  Dates are injected as string parameters (the code passes
str(date.today()) into the SQL).
-/

namespace LibraryApp

/-- ASCII lower-casing of a single character.  SQLite folds case only for
the 26 ASCII upper-case letters in LIKE comparisons. -/
def foldAscii (c : Char) : Char :=
  if 'A' ≤ c ∧ c ≤ 'Z' then Char.ofNat (c.toNat + 32) else c

/-- Value of a decimal digit character, none for non-digits. -/
def digitVal (c : Char) : Option Nat :=
  if '0' ≤ c ∧ c ≤ '9' then some (c.toNat - 48) else none

/-- Accumulate the remaining digits of a decimal literal. -/
def digitsValAux : List Char → Nat → Option Nat
  | [], acc => some acc
  | c :: cs, acc =>
    match digitVal c with
    | none => none
    | some d => digitsValAux cs (acc * 10 + d)

/-- Value of a nonempty all-digit character list, none otherwise. -/
def digitsVal : List Char → Option Nat
  | [] => none
  | c :: cs =>
    match digitVal c with
    | none => none
    | some d => digitsValAux cs d

/-- Models the Python int(...) conversion applied to an already stripped
string: an optional sign followed by one or more decimal digits; anything
else raises ValueError, embedded as none. -/
def parsePyInt (s : String) : Option Int :=
  match s.data with
  | [] => none
  | '+' :: cs => (digitsVal cs).map (fun n => (n : Int))
  | '-' :: cs => (digitsVal cs).map (fun n => -(n : Int))
  | cs => (digitsVal cs).map (fun n => (n : Int))

/-- ASCII whitespace stripped by the Python str.strip() calls. -/
def isSpace (c : Char) : Bool :=
  c == ' ' || c == '\t' || c == '\n' || c == '\r' || c == '\x0b' || c == '\x0c'

/-- Models the Python str.strip() calls applied to every entry field:
drop leading and trailing whitespace. -/
def strip (s : String) : String :=
  ⟨(((s.data.dropWhile isSpace).reverse.dropWhile isSpace).reverse)⟩

/-- A row of the books table. -/
structure Book where
  id : Nat
  title : String
  author : String
  quantity : Int
deriving Repr, DecidableEq

/-- A row of the students table. -/
structure Student where
  id : Nat
  name : String
  roll_no : String
deriving Repr, DecidableEq

/-- A row of the issued_books table.  return_date = none is the SQL NULL
meaning the loan is still open. -/
structure Loan where
  id : Nat
  book_id : Nat
  student_id : Nat
  issue_date : String
  return_date : Option String
deriving Repr, DecidableEq

/-- The whole database: the three tables plus the next AUTOINCREMENT key of
each. -/
structure DB where
  books : List Book
  students : List Student
  loans : List Loan
  next_book_id : Nat
  next_student_id : Nat
  next_loan_id : Nat
deriving Repr, DecidableEq

/-- The error taxonomy of the specification; the code surfaces these as
message boxes (Input Error, not found, Unavailable / Already Issued /
currently issued). -/
inductive LibError where
  | validationError (msg : String)
  | notFoundError (msg : String)
  | conflictError (msg : String)
deriving Repr, DecidableEq

/-- Outcome of one operation. -/
inductive OpOut where
  | ok
  | err (e : LibError)
deriving Repr, DecidableEq

/-- init_db creates empty tables; AUTOINCREMENT keys start at 1. -/
def init_db : DB := ⟨[], [], [], 1, 1, 1⟩

/-- AddBookFrame.save_book: strip the three entries, require all nonempty,
parse the quantity with int(...) rejecting negatives, then
INSERT INTO books. -/
def save_book (st : DB) (titleIn authorIn qtyIn : String) : DB × OpOut :=
  let title := strip titleIn
  let author := strip authorIn
  let qty := strip qtyIn
  if title = "" ∨ author = "" ∨ qty = "" then
    (st, .err (.validationError "All fields are required"))
  else
    match parsePyInt qty with
    | none => (st, .err (.validationError "Quantity must be a positive number"))
    | some n =>
      if n < 0 then
        (st, .err (.validationError "Quantity must be a positive number"))
      else
        ({ st with
            books := st.books ++ [⟨st.next_book_id, title, author, n⟩],
            next_book_id := st.next_book_id + 1 },
         .ok)

/-- ViewBooksFrame.save_update: same validation as save_book, then
UPDATE books SET title, author, quantity WHERE id = book_id.  The code
performs no existence check on book_id and reports success regardless. -/
def save_update (st : DB) (book_id : Nat) (titleIn authorIn qtyIn : String) :
    DB × OpOut :=
  let title := strip titleIn
  let author := strip authorIn
  let qty := strip qtyIn
  if title = "" ∨ author = "" ∨ qty = "" then
    (st, .err (.validationError "All fields are required"))
  else
    match parsePyInt qty with
    | none => (st, .err (.validationError "Quantity must be a positive number"))
    | some n =>
      if n < 0 then
        (st, .err (.validationError "Quantity must be a positive number"))
      else
        ({ st with
            books := st.books.map (fun b =>
              if b.id = book_id then
                { b with title := title, author := author, quantity := n }
              else b) },
         .ok)

/-- The WHERE clause of the open-loan check used by delete_selected:
book_id matches and return_date IS NULL. -/
def openLoanFor (book_id : Nat) (l : Loan) : Bool :=
  l.book_id == book_id && l.return_date.isNone

/-- ViewBooksFrame.delete_selected, after the user confirms: refuse when an
open loan references the book, otherwise DELETE FROM books WHERE id = ?. -/
def delete_selected (st : DB) (book_id : Nat) : DB × OpOut :=
  if st.loans.any (openLoanFor book_id) then
    (st, .err (.conflictError "Cannot delete book. It is currently issued."))
  else
    ({ st with books := st.books.filter (fun b => !(b.id == book_id)) }, .ok)

/-- SELECT quantity FROM books WHERE id = ? with a text parameter: sqlite
INTEGER column affinity converts a numeric-looking string and compares by
value, so the lookup succeeds exactly when the text parses as the integer
id of a stored book. -/
def lookupBook (st : DB) (bid : String) : Option Book :=
  match parsePyInt bid with
  | none => none
  | some n => st.books.find? (fun b => ((b.id : Int) == n))

/-- The WHERE clause of the duplicate-issue check: same book, same student,
return_date IS NULL. -/
def openPair (book_id student_id : Nat) (l : Loan) : Bool :=
  l.book_id == book_id && l.student_id == student_id && l.return_date.isNone

/-- UPDATE books SET quantity = quantity - 1 WHERE id = ? on one row. -/
def decBook (book_id : Nat) (b : Book) : Book :=
  if b.id = book_id then { b with quantity := b.quantity - 1 } else b

/-- UPDATE books SET quantity = quantity + 1 WHERE id = ? on one row. -/
def incBook (book_id : Nat) (b : Book) : Book :=
  if b.id = book_id then { b with quantity := b.quantity + 1 } else b

/-- Steps 3 to 5 of issue_book once the student id is resolved: reject if
the student already holds an open copy of the book, otherwise insert the
loan row and decrement the quantity of the book. -/
def recordIssue (st : DB) (book_id student_id : Nat) (today : String) :
    DB × OpOut :=
  if st.loans.any (openPair book_id student_id) then
    (st, .err (.conflictError "already has a copy of this book"))
  else
    ({ st with
        loans := st.loans ++ [⟨st.next_loan_id, book_id, student_id, today, none⟩],
        next_loan_id := st.next_loan_id + 1,
        books := st.books.map (decBook book_id) },
     .ok)

/-- IssueBookFrame.issue_book: require book id and roll number, look the
book up, require stock, find or create the student (the insert is committed
immediately in the code), then recordIssue. -/
def issue_book (st : DB) (bookIdIn rollIn nameIn today : String) : DB × OpOut :=
  let bid := strip bookIdIn
  let sroll := strip rollIn
  let sname := strip nameIn
  if bid = "" ∨ sroll = "" then
    (st, .err (.validationError "Book ID and Student Roll No are required"))
  else
    match lookupBook st bid with
    | none => (st, .err (.notFoundError "Book ID not found"))
    | some b =>
      if b.quantity ≤ 0 then
        (st, .err (.conflictError "No copies of this book are left to issue"))
      else
        match st.students.find? (fun s => s.roll_no == sroll) with
        | none =>
          if sname = "" then
            (st, .err (.validationError "Student Name is required for new students"))
          else
            recordIssue
              { st with
                  students := st.students ++ [⟨st.next_student_id, sname, sroll⟩],
                  next_student_id := st.next_student_id + 1 }
              b.id st.next_student_id today
        | some s => recordIssue st b.id s.id today

/-- ReturnBookFrame.return_book, after the user confirms.  The issue id and
the book id both come from the selected table row; the code runs the two
UPDATE statements unconditionally, with no existence check on either id. -/
def return_book (st : DB) (issue_id book_id : Nat) (today : String) :
    DB × OpOut :=
  ({ st with
      loans := st.loans.map (fun l =>
        if l.id = issue_id then { l with return_date := some today } else l),
      books := st.books.map (incBook book_id) },
   .ok)

/-- Does f hold of some suffix of the list (the list itself included)? -/
def suffixAny (f : List Char → Bool) : List Char → Bool
  | [] => f []
  | c :: ts => f (c :: ts) || suffixAny f ts

/-- SQLite LIKE on character lists: percent matches any sequence,
underscore matches exactly one character, anything else matches its
ASCII-case-folded self. -/
def likeAux : List Char → List Char → Bool
  | [], t => t.isEmpty
  | p :: ps, t =>
    if p = '%' then suffixAny (fun v => likeAux ps v) t
    else
      match t with
      | [] => false
      | c :: ts => (p == '_' || foldAscii p == foldAscii c) && likeAux ps ts

/-- title LIKE pattern, on the underlying characters. -/
def titleLike (pat t : String) : Bool :=
  likeAux pat.data t.data

/-- Byte-order comparison of character lists, the sqlite BINARY collation
used by ORDER BY title (UTF-8 byte order agrees with code-point order). -/
def listLe : List Char → List Char → Bool
  | [], _ => true
  | _ :: _, [] => false
  | c :: cs, d :: ds =>
    if c.toNat < d.toNat then true
    else if d.toNat < c.toNat then false
    else listLe cs ds

/-- Comparison of titles as strings. -/
def strLe (s t : String) : Bool := listLe s.data t.data

/-- Ordering of book rows produced by ORDER BY title. -/
def bookLe (b₁ b₂ : Book) : Prop := strLe b₁.title b₂.title = true

instance : DecidableRel bookLe := fun b₁ b₂ =>
  inferInstanceAs (Decidable (strLe b₁.title b₂.title = true))

/-- ViewBooksFrame.load_books: SELECT * FROM books ORDER BY title, with
WHERE title LIKE percent-filter-percent when a filter is supplied (the
Python code branches on the truthiness of the filter string). -/
def load_books (st : DB) (filter_text : String) : List Book :=
  if filter_text = "" then
    List.insertionSort bookLe st.books
  else
    List.insertionSort bookLe
      (st.books.filter (fun b => titleLike ("%" ++ filter_text ++ "%") b.title))

/-- Decides whether f occurs as a contiguous prefix of t. -/
def prefixB : List Char → List Char → Bool
  | [], _ => true
  | _ :: _, [] => false
  | c :: cs, d :: ds => c == d && prefixB cs ds

/-- Decides whether f occurs as a contiguous sublist of t. -/
def infixB (f : List Char) : List Char → Bool
  | [] => prefixB f []
  | c :: ts => prefixB f (c :: ts) || infixB f ts

/-- Modelled from the wording of the specification for SearchBooks: the
title contains the filter as a case-insensitive substring (ASCII case). -/
def containsCI (filter_text t : String) : Bool :=
  infixB (filter_text.data.map foldAscii) (t.data.map foldAscii)

/-- One user-level mutating operation, with the calendar date injected. -/
inductive Op where
  | add (title author qty : String)
  | update (id : Nat) (title author qty : String)
  | delete (id : Nat)
  | issue (bookId roll name today : String)
  | ret (issueId bookId : Nat) (today : String)

/-- The state reached after one operation (the UI keeps the state of the
database no matter whether the operation reported an error). -/
def applyOp (st : DB) : Op → DB
  | .add t a q => (save_book st t a q).1
  | .update i t a q => (save_update st i t a q).1
  | .delete i => (delete_selected st i).1
  | .issue b r n d => (issue_book st b r n d).1
  | .ret i b d => (return_book st i b d).1

/-- The state reached from the fresh database after a sequence of
operations. -/
def runOps (ops : List Op) : DB := ops.foldl applyOp init_db

/-- Quantity column of the book row with the given id, if any. -/
def qtyOf (st : DB) (book_id : Nat) : Option Int :=
  (st.books.find? (fun b => b.id == book_id)).map Book.quantity

theorem decBook_id (k : Nat) (b : Book) : (decBook k b).id = b.id := by
  unfold decBook; split <;> rfl

theorem incBook_id (k : Nat) (b : Book) : (incBook k b).id = b.id := by
  unfold incBook; split <;> rfl

theorem map_book_id_pres (f : Book → Book) (hf : ∀ b, (f b).id = b.id)
    (l : List Book) : (l.map f).map Book.id = l.map Book.id := by
  rw [List.map_map]
  exact List.map_congr_left (fun b _ => hf b)

theorem find?_book_map (f : Book → Book) (hf : ∀ b, (f b).id = b.id)
    (p : Nat → Bool) (l : List Book) :
    (l.map f).find? (fun b => p b.id) = (l.find? (fun b => p b.id)).map f := by
  induction l with
  | nil => rfl
  | cons b l ih =>
    by_cases hp : p b.id = true
    · simp [List.find?_cons, hf b, hp]
    · simp only [Bool.not_eq_true] at hp
      simp [List.find?_cons, hf b, hp, ih]

theorem find?_congr_pred {α : Type} (p q : α → Bool) (h : ∀ a, p a = q a)
    (l : List α) : l.find? p = l.find? q := by
  induction l with
  | nil => rfl
  | cons a l ih => rw [List.find?_cons, List.find?_cons, h a, ih]

theorem nodup_book_key_inj {l : List Book} (h : (l.map Book.id).Nodup)
    {b b' : Book} (hb : b ∈ l) (hb' : b' ∈ l) (he : b.id = b'.id) : b = b' :=
  List.inj_on_of_nodup_map h hb hb' he

/-! ### The reachable-state invariant -/

/-- Structural well-formedness maintained by every operation: quantities
are non-negative, the AUTOINCREMENT counters bound all stored keys, keys
and roll numbers are duplicate-free, and no (book, student) pair has two
open loan rows. -/
def Inv (st : DB) : Prop :=
  (∀ b ∈ st.books, 0 ≤ b.quantity) ∧
  (∀ b ∈ st.books, b.id < st.next_book_id) ∧
  (st.books.map Book.id).Nodup ∧
  (∀ s ∈ st.students, s.id < st.next_student_id) ∧
  (st.students.map Student.roll_no).Nodup ∧
  (∀ l ∈ st.loans, l.student_id < st.next_student_id) ∧
  (∀ l ∈ st.loans, l.id < st.next_loan_id) ∧
  (st.loans.map Loan.id).Nodup ∧
  List.Pairwise (fun l₁ l₂ => ¬(l₁.book_id = l₂.book_id ∧
    l₁.student_id = l₂.student_id ∧
    l₁.return_date = none ∧ l₂.return_date = none)) st.loans

theorem inv_init : Inv init_db := by
  refine ⟨?_, ?_, ?_, ?_, ?_, ?_, ?_, ?_, ?_⟩ <;> simp [init_db]

theorem inv_save_book (st : DB) (t a q : String) (h : Inv st) :
    Inv (save_book st t a q).1 := by
  obtain ⟨h1, h2, h3, h4, h5, h6, h7, h8, h9⟩ := h
  simp only [save_book]
  split
  · exact ⟨h1, h2, h3, h4, h5, h6, h7, h8, h9⟩
  split
  · exact ⟨h1, h2, h3, h4, h5, h6, h7, h8, h9⟩
  next n hn =>
  split
  · exact ⟨h1, h2, h3, h4, h5, h6, h7, h8, h9⟩
  next hneg =>
  refine ⟨?_, ?_, ?_, h4, h5, h6, h7, h8, h9⟩
  · intro b hb
    rcases List.mem_append.1 hb with hb | hb
    · exact h1 b hb
    · simp only [List.mem_singleton] at hb
      subst hb
      exact Int.not_lt.1 hneg
  · intro b hb
    rcases List.mem_append.1 hb with hb | hb
    · exact Nat.lt_succ_of_lt (h2 b hb)
    · simp only [List.mem_singleton] at hb
      subst hb
      exact Nat.lt_succ_self _
  · simp only [List.map_append, List.map_cons, List.map_nil]
    rw [List.nodup_append]
    refine ⟨h3, List.nodup_singleton _, ?_⟩
    intro x hx
    simp only [List.mem_singleton]
    intro he
    rcases List.mem_map.1 hx with ⟨b, hb, rfl⟩
    exact absurd he (Nat.ne_of_lt (h2 b hb))

theorem inv_save_update (st : DB) (k : Nat) (t a q : String) (h : Inv st) :
    Inv (save_update st k t a q).1 := by
  obtain ⟨h1, h2, h3, h4, h5, h6, h7, h8, h9⟩ := h
  simp only [save_update]
  split
  · exact ⟨h1, h2, h3, h4, h5, h6, h7, h8, h9⟩
  split
  · exact ⟨h1, h2, h3, h4, h5, h6, h7, h8, h9⟩
  next n hn =>
  split
  · exact ⟨h1, h2, h3, h4, h5, h6, h7, h8, h9⟩
  next hneg =>
  have hid : ∀ b : Book, ((fun b : Book =>
      if b.id = k then { b with title := strip t, author := strip a, quantity := n }
      else b) b).id = b.id := by
    intro b
    by_cases hb : b.id = k
    · simp [hb]
    · simp [hb]
  refine ⟨?_, ?_, ?_, h4, h5, h6, h7, h8, h9⟩
  · intro b hb
    rcases List.mem_map.1 hb with ⟨b0, hb0, rfl⟩
    by_cases hb' : b0.id = k
    · simp only [hb', if_true]
      exact Int.not_lt.1 hneg
    · simp only [hb', if_false]
      exact h1 b0 hb0
  · intro b hb
    rcases List.mem_map.1 hb with ⟨b0, hb0, rfl⟩
    rw [hid b0]
    exact h2 b0 hb0
  · rw [map_book_id_pres _ hid]
    exact h3

theorem inv_delete_selected (st : DB) (k : Nat) (h : Inv st) :
    Inv (delete_selected st k).1 := by
  obtain ⟨h1, h2, h3, h4, h5, h6, h7, h8, h9⟩ := h
  simp only [delete_selected]
  split
  · exact ⟨h1, h2, h3, h4, h5, h6, h7, h8, h9⟩
  refine ⟨?_, ?_, ?_, h4, h5, h6, h7, h8, h9⟩
  · intro b hb
    exact h1 b (List.mem_of_mem_filter hb)
  · intro b hb
    exact h2 b (List.mem_of_mem_filter hb)
  · exact h3.sublist ((List.filter_sublist _).map Book.id)

theorem inv_recordIssue (st : DB) (bid sid : Nat) (d : String) (h : Inv st)
    (hq : ∀ b ∈ st.books, b.id = bid → 0 < b.quantity)
    (hsid : sid < st.next_student_id) :
    Inv (recordIssue st bid sid d).1 := by
  obtain ⟨h1, h2, h3, h4, h5, h6, h7, h8, h9⟩ := h
  unfold recordIssue
  split
  · exact ⟨h1, h2, h3, h4, h5, h6, h7, h8, h9⟩
  next hany =>
  rw [Bool.not_eq_true, List.any_eq_false] at hany
  refine ⟨?_, ?_, ?_, h4, h5, ?_, ?_, ?_, ?_⟩
  · intro b hb
    rcases List.mem_map.1 hb with ⟨b0, hb0, rfl⟩
    unfold decBook
    split
    next he =>
      have := hq b0 hb0 he
      dsimp only
      omega
    · exact h1 b0 hb0
  · intro b hb
    rcases List.mem_map.1 hb with ⟨b0, hb0, rfl⟩
    rw [decBook_id]
    exact h2 b0 hb0
  · rw [map_book_id_pres _ (decBook_id bid)]
    exact h3
  · intro l hl
    rcases List.mem_append.1 hl with hl | hl
    · exact h6 l hl
    · simp only [List.mem_singleton] at hl
      subst hl
      exact hsid
  · intro l hl
    rcases List.mem_append.1 hl with hl | hl
    · exact Nat.lt_succ_of_lt (h7 l hl)
    · simp only [List.mem_singleton] at hl
      subst hl
      exact Nat.lt_succ_self _
  · simp only [List.map_append, List.map_cons, List.map_nil]
    rw [List.nodup_append]
    refine ⟨h8, List.nodup_singleton _, ?_⟩
    intro x hx
    simp only [List.mem_singleton]
    intro he
    rcases List.mem_map.1 hx with ⟨l, hl, rfl⟩
    exact absurd he (Nat.ne_of_lt (h7 l hl))
  · rw [List.pairwise_append]
    refine ⟨h9, List.pairwise_singleton _ _, ?_⟩
    intro l hl l' hl'
    simp only [List.mem_singleton] at hl'
    subst hl'
    intro ⟨hb, hs, hr, _⟩
    have := hany l hl
    rw [openPair] at this
    simp only [hb, hs, hr, Option.isNone_none, beq_self_eq_true,
      Bool.and_true, Bool.and_self, Bool.not_eq_true] at this
    exact absurd this (by simp)

theorem inv_issue_book (st : DB) (bIn rIn nIn d : String) (h : Inv st) :
    Inv (issue_book st bIn rIn nIn d).1 := by
  have hInv := h
  obtain ⟨h1, h2, h3, h4, h5, h6, h7, h8, h9⟩ := h
  simp only [issue_book]
  split
  · exact hInv
  split
  · exact hInv
  next b hb =>
  split
  · exact hInv
  next hqty =>
  have hbmem : b ∈ st.books := by
    rw [lookupBook] at hb
    rcases hp : parsePyInt (strip bIn) with _ | n
    · rw [hp] at hb
      exact absurd hb (by simp)
    · rw [hp] at hb
      exact List.mem_of_find?_eq_some hb
  have hq : ∀ b0 ∈ st.books, b0.id = b.id → 0 < b0.quantity := by
    intro b0 hb0 he
    rw [nodup_book_key_inj h3 hb0 hbmem he]
    omega
  split
  next hfind =>
    split
    · exact hInv
    next hname =>
    apply inv_recordIssue
    · refine ⟨h1, h2, h3, ?_, ?_, ?_, h7, h8, h9⟩
      · intro s hs
        rcases List.mem_append.1 hs with hs | hs
        · exact Nat.lt_succ_of_lt (h4 s hs)
        · simp only [List.mem_singleton] at hs
          subst hs
          exact Nat.lt_succ_self _
      · simp only [List.map_append, List.map_cons, List.map_nil]
        rw [List.nodup_append]
        refine ⟨h5, List.nodup_singleton _, ?_⟩
        intro x hx
        simp only [List.mem_singleton]
        intro he
        rw [List.find?_eq_none] at hfind
        rcases List.mem_map.1 hx with ⟨s, hs, rfl⟩
        have := hfind s hs
        rw [he] at this
        simp at this
      · intro l hl
        exact Nat.lt_succ_of_lt (h6 l hl)
    · exact hq
    · exact Nat.lt_succ_self _
  next s hfind =>
    apply inv_recordIssue st b.id s.id d hInv hq
    exact h4 s (List.mem_of_find?_eq_some hfind)

theorem inv_return_book (st : DB) (i k : Nat) (d : String) (h : Inv st) :
    Inv (return_book st i k d).1 := by
  obtain ⟨h1, h2, h3, h4, h5, h6, h7, h8, h9⟩ := h
  unfold return_book
  have hlid : ∀ l : Loan, ((fun l : Loan =>
      if l.id = i then { l with return_date := some d } else l) l).id = l.id := by
    intro l
    by_cases hl : l.id = i
    · simp [hl]
    · simp [hl]
  refine ⟨?_, ?_, ?_, h4, h5, ?_, ?_, ?_, ?_⟩
  · intro b hb
    rcases List.mem_map.1 hb with ⟨b0, hb0, rfl⟩
    unfold incBook
    split
    · have := h1 b0 hb0
      dsimp only
      omega
    · exact h1 b0 hb0
  · intro b hb
    rcases List.mem_map.1 hb with ⟨b0, hb0, rfl⟩
    rw [incBook_id]
    exact h2 b0 hb0
  · rw [map_book_id_pres _ (incBook_id k)]
    exact h3
  · intro l hl
    rcases List.mem_map.1 hl with ⟨l0, hl0, rfl⟩
    by_cases he : l0.id = i
    · simp only [he, if_true]
      exact h6 l0 hl0
    · simp only [he, if_false]
      exact h6 l0 hl0
  · intro l hl
    rcases List.mem_map.1 hl with ⟨l0, hl0, rfl⟩
    rw [hlid l0]
    exact h7 l0 hl0
  · have : (st.loans.map (fun l : Loan =>
        if l.id = i then { l with return_date := some d } else l)).map Loan.id
        = st.loans.map Loan.id := by
      rw [List.map_map]
      exact List.map_congr_left (fun l _ => hlid l)
    rw [this]
    exact h8
  · rw [List.pairwise_map]
    apply h9.imp
    intro a b hab ⟨hb, hs, hra, hrb⟩
    apply hab
    by_cases ha' : a.id = i
    · simp only [ha', if_true] at hra
      exact absurd hra (by simp)
    · by_cases hb' : b.id = i
      · simp only [hb', if_true] at hrb
        exact absurd hrb (by simp)
      · simp only [ha', if_false] at hb hs hra
        simp only [hb', if_false] at hb hs hrb
        exact ⟨hb, hs, hra, hrb⟩

theorem inv_applyOp (st : DB) (o : Op) (h : Inv st) : Inv (applyOp st o) := by
  cases o with
  | add t a q => exact inv_save_book st t a q h
  | update i t a q => exact inv_save_update st i t a q h
  | delete i => exact inv_delete_selected st i h
  | issue b r n d => exact inv_issue_book st b r n d h
  | ret i b d => exact inv_return_book st i b d h

theorem inv_foldl (ops : List Op) : ∀ st : DB, Inv st → Inv (ops.foldl applyOp st) := by
  induction ops with
  | nil => intro st h; exact h
  | cons o ops ih =>
    intro st h
    exact ih (applyOp st o) (inv_applyOp st o h)

/-- Every state reachable from the fresh database satisfies the invariant. -/
theorem inv_runOps (ops : List Op) : Inv (runOps ops) :=
  inv_foldl ops init_db inv_init

/-- An empty string never looks a book up (int("") raises). -/
theorem lookupBook_empty (st : DB) : lookupBook st "" = none := by
  rfl

/-- Inversion of a successful issue_book call: the book was found with
positive stock, no open loan existed for the resolved pair, the loan row
was appended and the quantity decremented, and the student was either
found by roll number or freshly inserted. -/
theorem issue_book_ok {st st₁ : DB} {bIn rIn nIn d : String}
    (h : issue_book st bIn rIn nIn d = (st₁, OpOut.ok)) :
    ∃ b sid,
      lookupBook st (strip bIn) = some b ∧ 0 < b.quantity ∧
      strip rIn ≠ "" ∧
      st.loans.any (openPair b.id sid) = false ∧
      st₁.books = st.books.map (decBook b.id) ∧
      st₁.loans = st.loans ++ [⟨st.next_loan_id, b.id, sid, d, none⟩] ∧
      st₁.next_book_id = st.next_book_id ∧
      st₁.next_loan_id = st.next_loan_id + 1 ∧
      ((∃ s, st.students.find? (fun s0 => s0.roll_no == strip rIn) = some s ∧
          sid = s.id ∧ st₁.students = st.students ∧
          st₁.next_student_id = st.next_student_id) ∨
       (st.students.find? (fun s0 => s0.roll_no == strip rIn) = none ∧
          strip nIn ≠ "" ∧ sid = st.next_student_id ∧
          st₁.students = st.students ++ [⟨st.next_student_id, strip nIn, strip rIn⟩] ∧
          st₁.next_student_id = st.next_student_id + 1)) := by
  simp only [issue_book] at h
  split at h
  · simp at h
  next hne =>
  rw [not_or] at hne
  split at h
  · simp at h
  next b hb =>
  split at h
  · simp at h
  next hqty =>
  split at h
  next hfind =>
    split at h
    · simp at h
    next hname =>
    unfold recordIssue at h
    split at h
    · simp at h
    next hany =>
    rw [Prod.mk.injEq] at h
    refine ⟨b, st.next_student_id, hb, by omega, hne.2, ?_, ?_, ?_, ?_, ?_, ?_⟩
    · simpa using hany
    · rw [← h.1]
    · rw [← h.1]
    · rw [← h.1]
    · rw [← h.1]
    · right
      refine ⟨hfind, hname, rfl, ?_, ?_⟩
      · rw [← h.1]
      · rw [← h.1]
  next s hfind =>
    unfold recordIssue at h
    split at h
    · simp at h
    next hany =>
    rw [Prod.mk.injEq] at h
    refine ⟨b, s.id, hb, by omega, hne.2, ?_, ?_, ?_, ?_, ?_, ?_⟩
    · simpa using hany
    · rw [← h.1]
    · rw [← h.1]
    · rw [← h.1]
    · rw [← h.1]
    · left
      exact ⟨s, hfind, rfl, by rw [← h.1], by rw [← h.1]⟩

/-- C1: after every sequence of the five operations every stored book
quantity is non-negative; in particular issue_book does not succeed on a
book whose quantity is 0, and save_book and save_update answer a
validation error whenever the quantity input does not parse as an integer
or parses negative. -/
theorem c1_quantity_nonneg :
    (∀ ops : List Op, ∀ b ∈ (runOps ops).books, 0 ≤ b.quantity)
    ∧ (∀ st : DB, ∀ bIn rIn nIn d : String, ∀ b : Book,
        lookupBook st (strip bIn) = some b → b.quantity = 0 →
        (issue_book st bIn rIn nIn d).2 ≠ OpOut.ok)
    ∧ (∀ st : DB, ∀ t a q : String,
        (parsePyInt (strip q) = none ∨
          ∃ n : Int, parsePyInt (strip q) = some n ∧ n < 0) →
        (∃ m, (save_book st t a q).2 = OpOut.err (LibError.validationError m)) ∧
        (∀ k, ∃ m, (save_update st k t a q).2 =
          OpOut.err (LibError.validationError m))) := by
  refine ⟨?_, ?_, ?_⟩
  · intro ops b hb
    exact (inv_runOps ops).1 b hb
  · intro st bIn rIn nIn d b hb hq0
    simp only [issue_book]
    split
    · simp
    rw [hb]
    dsimp only
    rw [if_pos (show b.quantity ≤ 0 by omega)]
    simp
  · intro st t a q hq
    constructor
    · simp only [save_book]
      split
      · exact ⟨_, rfl⟩
      split
      · exact ⟨_, rfl⟩
      next n hn =>
      rcases hq with hq | ⟨n', hn', hneg⟩
      · rw [hq] at hn
        exact absurd hn (by simp)
      · rw [hn'] at hn
        rw [Option.some_inj] at hn
        subst hn
        rw [if_pos hneg]
        exact ⟨_, rfl⟩
    · intro k
      simp only [save_update]
      split
      · exact ⟨_, rfl⟩
      split
      · exact ⟨_, rfl⟩
      next n hn =>
      rcases hq with hq | ⟨n', hn', hneg⟩
      · rw [hq] at hn
        exact absurd hn (by simp)
      · rw [hn'] at hn
        rw [Option.some_inj] at hn
        subst hn
        rw [if_pos hneg]
        exact ⟨_, rfl⟩

/-- Witness for c1_quantity_nonneg at concrete inputs. -/
theorem c1_quantity_nonneg_witness :
    (∀ b ∈ (runOps [Op.add "T" "A" "2",
        Op.issue "1" "R1" "Alice" "2026-01-01"]).books, 0 ≤ b.quantity)
    ∧ (issue_book ⟨[⟨1, "X", "Y", 0⟩], [], [], 2, 1, 1⟩ "1" "R1" "A" "d").2
        ≠ OpOut.ok
    ∧ (∃ m, (save_book init_db "T" "A" "-2").2 =
        OpOut.err (LibError.validationError m)) := by
  refine ⟨c1_quantity_nonneg.1 _, ?_, ?_⟩
  · exact c1_quantity_nonneg.2.1 ⟨[⟨1, "X", "Y", 0⟩], [], [], 2, 1, 1⟩
      "1" "R1" "A" "d" ⟨1, "X", "Y", 0⟩ (by decide) (by decide)
  · exact (c1_quantity_nonneg.2.2 init_db "T" "A" "-2"
      (Or.inr ⟨-2, by decide, by decide⟩)).1

theorem openPair_true_iff (bid sid : Nat) (l : Loan) :
    openPair bid sid l = true ↔
      l.book_id = bid ∧ l.student_id = sid ∧ l.return_date = none := by
  simp [openPair, Option.isNone_iff_eq_none, and_assoc]

theorem filter_openPair_len {loans : List Loan}
    (h : List.Pairwise (fun l₁ l₂ => ¬(l₁.book_id = l₂.book_id ∧
      l₁.student_id = l₂.student_id ∧
      l₁.return_date = none ∧ l₂.return_date = none)) loans)
    (bid sid : Nat) : (loans.filter (openPair bid sid)).length ≤ 1 := by
  induction loans with
  | nil => simp
  | cons l ls ih =>
    rcases List.pairwise_cons.1 h with ⟨hl, hls⟩
    by_cases hp : openPair bid sid l = true
    · rw [List.filter_cons_of_pos hp]
      have hnil : ls.filter (openPair bid sid) = [] := by
        rw [List.filter_eq_nil_iff]
        intro l' hl' hp'
        rcases (openPair_true_iff bid sid l).1 hp with ⟨e1, e2, e3⟩
        rcases (openPair_true_iff bid sid l').1 hp' with ⟨f1, f2, f3⟩
        exact hl l' hl' ⟨e1.trans f1.symm, e2.trans f2.symm, e3, f3⟩
      rw [hnil]
      simp
    · rw [List.filter_cons_of_neg hp]
      exact ih hls

/-- C2: in every reachable state each (book, student) pair has at most one
open loan row, and a second issue_book for the same book id and the same
roll number, immediately after a successful one, fails with a conflict
error and leaves the state untouched (so no loan row is created). -/
theorem c2_one_open_loan :
    (∀ ops : List Op, ∀ bid sid : Nat,
      (((runOps ops).loans.filter (openPair bid sid)).length ≤ 1))
    ∧ (∀ st st₁ : DB, ∀ bIn rIn nIn nIn' d d' : String,
        issue_book st bIn rIn nIn d = (st₁, OpOut.ok) →
        ∃ m, issue_book st₁ bIn rIn nIn' d' =
          (st₁, OpOut.err (LibError.conflictError m))) := by
  constructor
  · intro ops bid sid
    obtain ⟨-, -, -, -, -, -, -, -, h9⟩ := inv_runOps ops
    exact filter_openPair_len h9 bid sid
  · intro st st₁ bIn rIn nIn nIn' d d' h
    obtain ⟨b, sid, hlk, hq, hroll, hany, hbooks, hloans, -, -, hstu⟩ :=
      issue_book_ok h
    have hbne : strip bIn ≠ "" := by
      intro he
      rw [he, lookupBook_empty] at hlk
      exact absurd hlk (by simp)
    obtain ⟨n, hn, hfind⟩ : ∃ n, parsePyInt (strip bIn) = some n ∧
        st.books.find? (fun b0 => ((b0.id : Int) == n)) = some b := by
      rw [lookupBook] at hlk
      rcases hp : parsePyInt (strip bIn) with _ | n
      · rw [hp] at hlk
        exact absurd hlk (by simp)
      · rw [hp] at hlk
        exact ⟨n, rfl, hlk⟩
    have hbn : ((b.id : Int)) = n := by
      have := List.find?_some hfind
      simpa using this
    have hlk₁ : lookupBook st₁ (strip bIn) = some (decBook b.id b) := by
      rw [lookupBook, hn, hbooks]
      dsimp only
      rw [find?_book_map _ (decBook_id b.id) (fun i => ((i : Int) == n))]
      rw [hfind]
      rfl
    have hdid : (decBook b.id b).id = b.id := decBook_id b.id b
    simp only [issue_book]
    rw [if_neg (by rw [not_or]; exact ⟨hbne, hroll⟩)]
    rw [hlk₁]
    dsimp only
    by_cases hq1 : (decBook b.id b).quantity ≤ 0
    · rw [if_pos hq1]
      exact ⟨_, rfl⟩
    rw [if_neg hq1]
    have hnewmem : (⟨st.next_loan_id, b.id, sid, d, none⟩ : Loan) ∈ st₁.loans := by
      rw [hloans]
      exact List.mem_append_right _ (List.mem_singleton.2 rfl)
    have hany₁ : st₁.loans.any (openPair b.id sid) = true := by
      rw [List.any_eq_true]
      exact ⟨_, hnewmem, by simp [openPair]⟩
    rcases hstu with ⟨s, hsf, hsid, hstu₁, -⟩ | ⟨hsf, -, hsid, hstu₁, -⟩
    · rw [hstu₁, hsf]
      dsimp only
      rw [hdid, ← hsid]
      unfold recordIssue
      rw [if_pos hany₁]
      exact ⟨_, rfl⟩
    · have hsf₁ : st₁.students.find? (fun s0 => s0.roll_no == strip rIn) =
          some ⟨st.next_student_id, strip nIn, strip rIn⟩ := by
        rw [hstu₁, List.find?_append, hsf, Option.none_or]
        simp [List.find?_cons]
      rw [hsf₁]
      dsimp only
      rw [hdid, ← hsid]
      unfold recordIssue
      rw [if_pos hany₁]
      exact ⟨_, rfl⟩

/-- Witness for c2_one_open_loan at concrete inputs. -/
theorem c2_one_open_loan_witness :
    (((runOps [Op.add "T" "A" "2",
        Op.issue "1" "R1" "Alice" "d1"]).loans.filter (openPair 1 1)).length ≤ 1)
    ∧ (∃ m, issue_book ⟨[⟨1, "T", "A", 1⟩], [⟨1, "Alice", "R1"⟩],
        [⟨1, 1, 1, "d1", none⟩], 2, 2, 2⟩ "1" "R1" "Bob" "d2" =
        (⟨[⟨1, "T", "A", 1⟩], [⟨1, "Alice", "R1"⟩],
          [⟨1, 1, 1, "d1", none⟩], 2, 2, 2⟩,
         OpOut.err (LibError.conflictError m))) := by
  constructor
  · exact c2_one_open_loan.1 _ 1 1
  · exact c2_one_open_loan.2 ⟨[⟨1, "T", "A", 2⟩], [], [], 2, 1, 1⟩
      _ "1" "R1" "Alice" "Bob" "d1" "d2" (by decide)

/-- C3: if issue_book succeeds, the quantity of the issued book drops by
exactly one, and return_book on the loan it created (loan id
st.next_loan_id, book id b.id) restores the quantity to its value before
the issue. -/
theorem c3_issue_return_roundtrip :
    ∀ st st₁ : DB, ∀ bIn rIn nIn d d' : String, ∀ b : Book,
      issue_book st bIn rIn nIn d = (st₁, OpOut.ok) →
      lookupBook st (strip bIn) = some b →
      qtyOf st b.id = some b.quantity ∧
      qtyOf st₁ b.id = some (b.quantity - 1) ∧
      qtyOf (return_book st₁ st.next_loan_id b.id d').1 b.id =
        some b.quantity := by
  intro st st₁ bIn rIn nIn d d' b h hlk
  obtain ⟨b0, sid, hlk0, hq, hroll, hany, hbooks, hloans, -, -, hstu⟩ :=
    issue_book_ok h
  rw [hlk] at hlk0
  rw [Option.some_inj] at hlk0
  subst hlk0
  obtain ⟨n, hn, hfind⟩ : ∃ n, parsePyInt (strip bIn) = some n ∧
      st.books.find? (fun b0 => ((b0.id : Int) == n)) = some b := by
    rw [lookupBook] at hlk
    rcases hp : parsePyInt (strip bIn) with _ | n
    · rw [hp] at hlk
      exact absurd hlk (by simp)
    · rw [hp] at hlk
      exact ⟨n, rfl, hlk⟩
  have hbn : ((b.id : Int)) = n := by
    have := List.find?_some hfind
    simpa using this
  have hfind_nat : st.books.find? (fun x => x.id == b.id) = some b := by
    rw [find?_congr_pred (fun x : Book => x.id == b.id)
      (fun x : Book => ((x.id : Int) == n))]
    · exact hfind
    · intro x
      rw [Bool.eq_iff_iff, beq_iff_eq, beq_iff_eq, ← hbn]
      exact ⟨fun he => by rw [he], fun he => by exact_mod_cast he⟩
  have hq1 : qtyOf st₁ b.id = some (b.quantity - 1) := by
    rw [qtyOf, hbooks]
    rw [find?_book_map _ (decBook_id b.id) (fun i => (i == b.id))]
    rw [hfind_nat]
    simp only [Option.map_some']
    rw [decBook]
    rw [if_pos rfl]
  refine ⟨?_, hq1, ?_⟩
  · rw [qtyOf, hfind_nat]
    rfl
  · rw [qtyOf]
    unfold return_book
    dsimp only
    rw [hbooks]
    rw [find?_book_map _ (incBook_id b.id) (fun i => (i == b.id))]
    rw [find?_book_map _ (decBook_id b.id) (fun i => (i == b.id))]
    rw [hfind_nat]
    simp only [Option.map_some']
    rw [decBook, incBook]
    rw [if_pos rfl]
    simp only [if_pos rfl]
    simp [sub_add_cancel]

/-- Witness for c3_issue_return_roundtrip at concrete inputs. -/
theorem c3_issue_return_roundtrip_witness :
    qtyOf ⟨[⟨1, "T", "A", 2⟩], [], [], 2, 1, 1⟩ 1 = some 2
    ∧ qtyOf ⟨[⟨1, "T", "A", 1⟩], [⟨1, "Alice", "R1"⟩],
        [⟨1, 1, 1, "d1", none⟩], 2, 2, 2⟩ 1 = some 1
    ∧ qtyOf (return_book ⟨[⟨1, "T", "A", 1⟩], [⟨1, "Alice", "R1"⟩],
        [⟨1, 1, 1, "d1", none⟩], 2, 2, 2⟩ 1 1 "d2").1 1 = some 2 := by
  have := c3_issue_return_roundtrip ⟨[⟨1, "T", "A", 2⟩], [], [], 2, 1, 1⟩
    ⟨[⟨1, "T", "A", 1⟩], [⟨1, "Alice", "R1"⟩], [⟨1, 1, 1, "d1", none⟩], 2, 2, 2⟩
    "1" "R1" "Alice" "d1" "d2" ⟨1, "T", "A", 2⟩ (by decide) (by decide)
  exact this

/-- C4: whenever an operation answers an error the database is exactly the
state it had before the call (return_book never errors), and issue_book on
a zero-quantity book answers the conflict error while leaving the state
untouched, creating neither a loan row nor a student row. -/
theorem c4_error_atomicity :
    (∀ st : DB, ∀ t a q : String, ∀ e,
      (save_book st t a q).2 = OpOut.err e → (save_book st t a q).1 = st)
    ∧ (∀ st : DB, ∀ k : Nat, ∀ t a q : String, ∀ e,
      (save_update st k t a q).2 = OpOut.err e → (save_update st k t a q).1 = st)
    ∧ (∀ st : DB, ∀ k : Nat, ∀ e,
      (delete_selected st k).2 = OpOut.err e → (delete_selected st k).1 = st)
    ∧ (∀ st : DB, ∀ bIn rIn nIn d : String, ∀ e, Inv st →
      (issue_book st bIn rIn nIn d).2 = OpOut.err e →
      (issue_book st bIn rIn nIn d).1 = st)
    ∧ (∀ st : DB, ∀ i k : Nat, ∀ d : String, (return_book st i k d).2 = OpOut.ok)
    ∧ (∀ st : DB, ∀ bIn rIn nIn d : String, ∀ b : Book, strip rIn ≠ "" →
      lookupBook st (strip bIn) = some b → b.quantity = 0 →
      issue_book st bIn rIn nIn d = (st,
        OpOut.err (LibError.conflictError
          "No copies of this book are left to issue"))) := by
  refine ⟨?_, ?_, ?_, ?_, ?_, ?_⟩
  · intro st t a q e
    simp only [save_book]
    split
    · intro _
      rfl
    split
    · intro _
      rfl
    split
    · intro _
      rfl
    · intro h
      exact absurd h (by simp)
  · intro st k t a q e
    simp only [save_update]
    split
    · intro _
      rfl
    split
    · intro _
      rfl
    split
    · intro _
      rfl
    · intro h
      exact absurd h (by simp)
  · intro st k e
    simp only [delete_selected]
    split
    · intro _
      rfl
    · intro h
      exact absurd h (by simp)
  · intro st bIn rIn nIn d e hInv
    obtain ⟨-, -, -, -, -, h6, -, -, -⟩ := hInv
    simp only [issue_book]
    split
    · intro _
      rfl
    split
    · intro _
      rfl
    next b hb =>
    split
    · intro _
      rfl
    next hqty =>
    split
    next hfind =>
      split
      · intro _
        rfl
      next hname =>
      unfold recordIssue
      split
      next hany =>
        rw [List.any_eq_true] at hany
        obtain ⟨l, hl, hop⟩ := hany
        have hl' : l ∈ st.loans := hl
        rcases (openPair_true_iff _ _ l).1 hop with ⟨-, hsid, -⟩
        have := h6 l hl'
        omega
      · intro h
        exact absurd h (by simp)
    next s hfind =>
      unfold recordIssue
      split
      · intro _
        rfl
      · intro h
        exact absurd h (by simp)
  · intro st i k d
    rfl
  · intro st bIn rIn nIn d b hroll hlk hq0
    have hbne : strip bIn ≠ "" := by
      intro he
      rw [he, lookupBook_empty] at hlk
      exact absurd hlk (by simp)
    simp only [issue_book]
    rw [if_neg (by rw [not_or]; exact ⟨hbne, hroll⟩)]
    rw [hlk]
    dsimp only
    rw [if_pos (show b.quantity ≤ 0 by omega)]

/-- Witness for c4_error_atomicity at concrete inputs. -/
theorem c4_error_atomicity_witness :
    (save_book ⟨[⟨1, "X", "Y", 0⟩], [], [], 2, 1, 1⟩ "" "Y" "1").1 =
      ⟨[⟨1, "X", "Y", 0⟩], [], [], 2, 1, 1⟩
    ∧ (issue_book ⟨[⟨1, "X", "Y", 0⟩], [], [], 2, 1, 1⟩ "1" "R1" "A" "d").1 =
      ⟨[⟨1, "X", "Y", 0⟩], [], [], 2, 1, 1⟩
    ∧ issue_book ⟨[⟨1, "X", "Y", 0⟩], [], [], 2, 1, 1⟩ "1" "R1" "A" "d" =
      (⟨[⟨1, "X", "Y", 0⟩], [], [], 2, 1, 1⟩,
       OpOut.err (LibError.conflictError
         "No copies of this book are left to issue")) := by
  refine ⟨?_, ?_, ?_⟩
  · exact c4_error_atomicity.1 _ "" "Y" "1"
      (LibError.validationError "All fields are required") (by decide)
  · exact c4_error_atomicity.2.2.2.1 _ "1" "R1" "A" "d"
      (LibError.conflictError "No copies of this book are left to issue")
      ⟨by decide, by decide, by decide, by decide, by decide, by decide,
        by decide, by decide, by decide⟩ (by decide)
  · exact c4_error_atomicity.2.2.2.2.2 _ "1" "R1" "A" "d" ⟨1, "X", "Y", 0⟩
      (by decide) (by decide) (by decide)

theorem openLoanFor_true_iff (k : Nat) (l : Loan) :
    openLoanFor k l = true ↔ l.book_id = k ∧ l.return_date = none := by
  simp [openLoanFor, Option.isNone_iff_eq_none]

/-- C5: delete_selected answers the conflict error exactly when some open
loan row references the book; on that failure the whole state (so in
particular the book row) is untouched, and otherwise it reports success
and removes exactly the book rows with that id, leaving loans and students
alone. -/
theorem c5_delete_open_loan :
    ∀ st : DB, ∀ k : Nat,
      ((∃ m, (delete_selected st k).2 = OpOut.err (LibError.conflictError m)) ↔
        ∃ l ∈ st.loans, l.book_id = k ∧ l.return_date = none)
      ∧ ((∃ l ∈ st.loans, l.book_id = k ∧ l.return_date = none) →
          (delete_selected st k).1 = st)
      ∧ ((¬ ∃ l ∈ st.loans, l.book_id = k ∧ l.return_date = none) →
          (delete_selected st k).2 = OpOut.ok ∧
          (delete_selected st k).1.books =
            st.books.filter (fun b => !(b.id == k)) ∧
          (delete_selected st k).1.loans = st.loans ∧
          (delete_selected st k).1.students = st.students) := by
  intro st k
  have hiff : st.loans.any (openLoanFor k) = true ↔
      ∃ l ∈ st.loans, l.book_id = k ∧ l.return_date = none := by
    rw [List.any_eq_true]
    constructor
    · intro ⟨l, hl, hp⟩
      exact ⟨l, hl, (openLoanFor_true_iff k l).1 hp⟩
    · intro ⟨l, hl, hp⟩
      exact ⟨l, hl, (openLoanFor_true_iff k l).2 hp⟩
  by_cases hany : st.loans.any (openLoanFor k) = true
  · unfold delete_selected
    rw [if_pos hany]
    refine ⟨⟨fun _ => hiff.1 hany, fun _ => ⟨_, rfl⟩⟩, fun _ => rfl, ?_⟩
    intro hno
    exact absurd (hiff.1 hany) hno
  · unfold delete_selected
    rw [if_neg hany]
    refine ⟨⟨?_, ?_⟩, ?_, ?_⟩
    · intro ⟨m, hm⟩
      exact absurd hm (by simp)
    · intro hex
      exact absurd (hiff.2 hex) hany
    · intro hex
      exact absurd (hiff.2 hex) hany
    · intro _
      exact ⟨rfl, rfl, rfl, rfl⟩

/-- Witness for c5_delete_open_loan at concrete inputs. -/
theorem c5_delete_open_loan_witness :
    (delete_selected ⟨[⟨1, "T", "A", 0⟩], [⟨1, "S", "R"⟩],
      [⟨1, 1, 1, "d", none⟩], 2, 2, 2⟩ 1).1 =
      ⟨[⟨1, "T", "A", 0⟩], [⟨1, "S", "R"⟩], [⟨1, 1, 1, "d", none⟩], 2, 2, 2⟩
    ∧ (delete_selected ⟨[⟨1, "T", "A", 3⟩], [], [], 2, 1, 1⟩ 1).2 = OpOut.ok
    ∧ (delete_selected ⟨[⟨1, "T", "A", 3⟩], [], [], 2, 1, 1⟩ 1).1.books =
      ([⟨1, "T", "A", 3⟩] : List Book).filter (fun b => !(b.id == 1)) := by
  refine ⟨?_, ?_, ?_⟩
  · exact (c5_delete_open_loan ⟨[⟨1, "T", "A", 0⟩], [⟨1, "S", "R"⟩],
      [⟨1, 1, 1, "d", none⟩], 2, 2, 2⟩ 1).2.1
      ⟨⟨1, 1, 1, "d", none⟩, by decide, by decide, rfl⟩
  · exact ((c5_delete_open_loan ⟨[⟨1, "T", "A", 3⟩], [], [], 2, 1, 1⟩ 1).2.2
      (by decide)).1
  · exact ((c5_delete_open_loan ⟨[⟨1, "T", "A", 3⟩], [], [], 2, 1, 1⟩ 1).2.2
      (by decide)).2.1

/-- C6 counterexample: with one book of quantity 5 and no loans at all,
return_book on loan id 99 (which references no loan) reports success and
still increments the quantity of book 1 from 5 to 6, instead of failing
with a not-found error and leaving quantities unchanged. -/
theorem c6_counterexample :
    (∀ l ∈ (⟨[⟨1, "T", "A", 5⟩], [], [], 2, 1, 1⟩ : DB).loans, l.id ≠ 99)
    ∧ (return_book ⟨[⟨1, "T", "A", 5⟩], [], [], 2, 1, 1⟩ 99 1 "d").2 = OpOut.ok
    ∧ qtyOf (return_book ⟨[⟨1, "T", "A", 5⟩], [], [], 2, 1, 1⟩ 99 1 "d").1 1 =
      some 6
    ∧ qtyOf (⟨[⟨1, "T", "A", 5⟩], [], [], 2, 1, 1⟩ : DB) 1 = some 5 := by
  decide

/-- C6 amended: return_book performs no existence check on the loan id.
When the id references no loan row it still reports success, leaves every
loan row and every student row unchanged, and increments the quantity of
the book id passed along with it. -/
theorem c6_return_missing_loan :
    ∀ st : DB, ∀ i k : Nat, ∀ d : String,
      (∀ l ∈ st.loans, l.id ≠ i) →
      (return_book st i k d).2 = OpOut.ok ∧
      (return_book st i k d).1.loans = st.loans ∧
      (return_book st i k d).1.students = st.students ∧
      (∀ b ∈ st.books, b.id = k →
        (⟨b.id, b.title, b.author, b.quantity + 1⟩ : Book) ∈
          (return_book st i k d).1.books) ∧
      (∀ b ∈ st.books, b.id ≠ k → b ∈ (return_book st i k d).1.books) := by
  intro st i k d h
  refine ⟨rfl, ?_, rfl, ?_, ?_⟩
  · show st.loans.map _ = st.loans
    have : st.loans.map (fun l : Loan =>
        if l.id = i then { l with return_date := some d } else l) =
        st.loans.map (fun l => l) :=
      List.map_congr_left (fun l hl => if_neg (h l hl))
    rw [this, List.map_id']
  · intro b hb hbk
    show _ ∈ st.books.map (incBook k)
    refine List.mem_map.2 ⟨b, hb, ?_⟩
    rw [incBook, if_pos hbk, hbk]
  · intro b hb hbk
    show _ ∈ st.books.map (incBook k)
    refine List.mem_map.2 ⟨b, hb, ?_⟩
    rw [incBook, if_neg hbk]

/-- Witness for c6_return_missing_loan at concrete inputs. -/
theorem c6_return_missing_loan_witness :
    (return_book ⟨[⟨1, "T", "A", 5⟩], [⟨1, "S", "R"⟩],
      [⟨1, 1, 1, "d0", none⟩], 2, 2, 2⟩ 99 1 "d").1.loans =
      [⟨1, 1, 1, "d0", none⟩]
    ∧ (⟨1, "T", "A", 6⟩ : Book) ∈
      (return_book ⟨[⟨1, "T", "A", 5⟩], [⟨1, "S", "R"⟩],
        [⟨1, 1, 1, "d0", none⟩], 2, 2, 2⟩ 99 1 "d").1.books := by
  have h := c6_return_missing_loan ⟨[⟨1, "T", "A", 5⟩], [⟨1, "S", "R"⟩],
    [⟨1, 1, 1, "d0", none⟩], 2, 2, 2⟩ 99 1 "d" (by decide)
  exact ⟨h.2.1, h.2.2.2.1 ⟨1, "T", "A", 5⟩ (by decide) rfl⟩

/-- C7 counterexample: with one book (id 1) stored, save_update on the
nonexistent id 999 with well-formed inputs reports success and modifies
nothing, instead of failing with a not-found error. -/
theorem c7_counterexample :
    (∀ b ∈ (⟨[⟨1, "T", "A", 2⟩], [], [], 2, 1, 1⟩ : DB).books, b.id ≠ 999)
    ∧ save_update ⟨[⟨1, "T", "A", 2⟩], [], [], 2, 1, 1⟩ 999 "X" "Y" "3" =
      (⟨[⟨1, "T", "A", 2⟩], [], [], 2, 1, 1⟩, OpOut.ok) := by
  decide

/-- C7 amended: save_update performs no existence check on the book id.
With well-formed inputs and an id matching no book row it reports success
and leaves the whole state unchanged (no book row is created or
modified). -/
theorem c7_update_missing_id :
    ∀ st : DB, ∀ k : Nat, ∀ t a q : String, ∀ n : Int,
      (∀ b ∈ st.books, b.id ≠ k) →
      strip t ≠ "" → strip a ≠ "" →
      parsePyInt (strip q) = some n → 0 ≤ n →
      save_update st k t a q = (st, OpOut.ok) := by
  intro st k t a q n hmem ht ha hp hn
  have hqne : strip q ≠ "" := by
    intro he
    rw [he] at hp
    exact absurd hp (by simp [parsePyInt])
  simp only [save_update]
  rw [if_neg (by rw [not_or, not_or]; exact ⟨ht, ha, hqne⟩)]
  rw [hp]
  dsimp only
  rw [if_neg (not_lt.2 hn)]
  have : st.books.map (fun b : Book =>
      if b.id = k then { b with title := strip t, author := strip a, quantity := n }
      else b) = st.books.map (fun b => b) :=
    List.map_congr_left (fun b hb => if_neg (hmem b hb))
  rw [this, List.map_id']

/-- Witness for c7_update_missing_id at concrete inputs. -/
theorem c7_update_missing_id_witness :
    save_update ⟨[⟨1, "T", "A", 2⟩], [], [], 2, 1, 1⟩ 999 "New" "Auth" "7" =
      (⟨[⟨1, "T", "A", 2⟩], [], [], 2, 1, 1⟩, OpOut.ok) := by
  exact c7_update_missing_id ⟨[⟨1, "T", "A", 2⟩], [], [], 2, 1, 1⟩ 999
    "New" "Auth" "7" 7 (by decide) (by decide) (by decide) (by decide)
    (by decide)

/-- C10: for a stored loan row (with distinct loan ids), return_book only
rewrites that loan row, preserving its id, book id, student id and issue
date and setting only the return date; every other loan row, every student
row and every book row with a different id is unchanged, and the book row
with the loan's book id keeps its title and author and gains one copy. -/
theorem c10_return_frame :
    ∀ st : DB, ∀ l : Loan, ∀ i k : Nat, ∀ d : String,
      l ∈ st.loans → l.id = i → l.book_id = k →
      (st.loans.map Loan.id).Nodup →
      (return_book st i k d).1.students = st.students
      ∧ (return_book st i k d).1.next_book_id = st.next_book_id
      ∧ (return_book st i k d).1.next_student_id = st.next_student_id
      ∧ (return_book st i k d).1.next_loan_id = st.next_loan_id
      ∧ (∃ pre post, st.loans = pre ++ l :: post ∧
          (return_book st i k d).1.loans =
            pre ++ (⟨l.id, l.book_id, l.student_id, l.issue_date, some d⟩ : Loan)
              :: post)
      ∧ (∀ b ∈ st.books, b.id ≠ k → b ∈ (return_book st i k d).1.books)
      ∧ (∀ b ∈ st.books, b.id = k →
          (⟨b.id, b.title, b.author, b.quantity + 1⟩ : Book) ∈
            (return_book st i k d).1.books)
      ∧ (return_book st i k d).1.books.length = st.books.length := by
  intro st l i k d hmem hid hbk hnd
  obtain ⟨pre, post, hsplit⟩ := List.append_of_mem hmem
  have hpre : ∀ x ∈ pre, x.id ≠ i := by
    intro x hx he
    rw [hsplit, List.map_append, List.map_cons, List.nodup_middle,
      List.nodup_cons] at hnd
    exact hnd.1 (List.mem_append_left _
      (List.mem_map.2 ⟨x, hx, by rw [he, hid]⟩))
  have hpost : ∀ x ∈ post, x.id ≠ i := by
    intro x hx he
    rw [hsplit, List.map_append, List.map_cons, List.nodup_middle,
      List.nodup_cons] at hnd
    exact hnd.1 (List.mem_append_right _
      (List.mem_map.2 ⟨x, hx, by rw [he, hid]⟩))
  refine ⟨rfl, rfl, rfl, rfl, ⟨pre, post, hsplit, ?_⟩, ?_, ?_, ?_⟩
  · show st.loans.map _ = _
    rw [hsplit, List.map_append, List.map_cons]
    have h1 : pre.map (fun l0 : Loan =>
        if l0.id = i then { l0 with return_date := some d } else l0) =
        pre.map (fun l0 => l0) :=
      List.map_congr_left (fun x hx => if_neg (hpre x hx))
    have h2 : post.map (fun l0 : Loan =>
        if l0.id = i then { l0 with return_date := some d } else l0) =
        post.map (fun l0 => l0) :=
      List.map_congr_left (fun x hx => if_neg (hpost x hx))
    rw [h1, h2, List.map_id', List.map_id', if_pos hid]
  · intro b hb hbne
    show _ ∈ st.books.map (incBook k)
    refine List.mem_map.2 ⟨b, hb, ?_⟩
    rw [incBook, if_neg hbne]
  · intro b hb hbe
    show _ ∈ st.books.map (incBook k)
    refine List.mem_map.2 ⟨b, hb, ?_⟩
    rw [incBook, if_pos hbe, hbe]
  · show (st.books.map (incBook k)).length = _
    rw [List.length_map]

/-- Witness for c10_return_frame at concrete inputs. -/
theorem c10_return_frame_witness :
    (return_book ⟨[⟨1, "T", "A", 4⟩], [⟨1, "S", "R"⟩],
      [⟨1, 1, 1, "d0", none⟩], 2, 2, 2⟩ 1 1 "d2").1.students = [⟨1, "S", "R"⟩]
    ∧ (∃ pre post,
        ([⟨1, 1, 1, "d0", none⟩] : List Loan) = pre ++ ⟨1, 1, 1, "d0", none⟩ :: post ∧
        (return_book ⟨[⟨1, "T", "A", 4⟩], [⟨1, "S", "R"⟩],
          [⟨1, 1, 1, "d0", none⟩], 2, 2, 2⟩ 1 1 "d2").1.loans =
          pre ++ (⟨1, 1, 1, "d0", some "d2"⟩ : Loan) :: post)
    ∧ (⟨1, "T", "A", 5⟩ : Book) ∈
      (return_book ⟨[⟨1, "T", "A", 4⟩], [⟨1, "S", "R"⟩],
        [⟨1, 1, 1, "d0", none⟩], 2, 2, 2⟩ 1 1 "d2").1.books := by
  have h := c10_return_frame ⟨[⟨1, "T", "A", 4⟩], [⟨1, "S", "R"⟩],
    [⟨1, 1, 1, "d0", none⟩], 2, 2, 2⟩ ⟨1, 1, 1, "d0", none⟩ 1 1 "d2"
    (by decide) rfl rfl (by decide)
  exact ⟨h.1, h.2.2.2.2.1, h.2.2.2.2.2.2.1 ⟨1, "T", "A", 4⟩ (by decide) rfl⟩

/-- C8: a successful issue_book for a roll number with no stored student
appends exactly one student row (with the supplied name); when a student
with the roll number already exists, issue_book never touches the student
table, whatever name is supplied and whatever the outcome, and on success
the created loan references the id of the existing student row. -/
theorem c8_student_dedup :
    ∀ st st₁ : DB, ∀ bIn rIn nIn d : String,
      (st.students.find? (fun s0 => s0.roll_no == strip rIn) = none →
        issue_book st bIn rIn nIn d = (st₁, OpOut.ok) →
        st₁.students = st.students ++
          [⟨st.next_student_id, strip nIn, strip rIn⟩])
      ∧ (∀ s : Student,
          st.students.find? (fun s0 => s0.roll_no == strip rIn) = some s →
          (issue_book st bIn rIn nIn d).1.students = st.students ∧
          ((issue_book st bIn rIn nIn d).2 = OpOut.ok →
            ∃ l ∈ (issue_book st bIn rIn nIn d).1.loans,
              l.id = st.next_loan_id ∧ l.student_id = s.id)) := by
  intro st st₁ bIn rIn nIn d
  constructor
  · intro hfind hok
    obtain ⟨b, sid, -, -, -, -, -, -, -, -, hstu⟩ := issue_book_ok hok
    rcases hstu with ⟨s, hsf, -, -, -⟩ | ⟨-, -, -, hstu₁, -⟩
    · rw [hfind] at hsf
      exact absurd hsf (by simp)
    · exact hstu₁
  · intro s hfind
    simp only [issue_book]
    rw [hfind]
    split
    · exact ⟨rfl, fun h => absurd h (by simp)⟩
    split
    · exact ⟨rfl, fun h => absurd h (by simp)⟩
    split
    · exact ⟨rfl, fun h => absurd h (by simp)⟩
    dsimp only
    unfold recordIssue
    split
    · exact ⟨rfl, fun h => absurd h (by simp)⟩
    · refine ⟨rfl, fun _ => ⟨_, List.mem_append_right _ (List.mem_singleton.2 rfl),
        rfl, rfl⟩⟩

/-- Witness for c8_student_dedup at concrete inputs. -/
theorem c8_student_dedup_witness :
    (⟨[⟨1, "T", "A", 1⟩], [⟨1, "Alice", "R1"⟩, ⟨2, "Bob", "R2"⟩],
      [⟨1, 1, 2, "d", none⟩], 2, 3, 2⟩ : DB).students =
      [⟨1, "Alice", "R1"⟩] ++ [⟨2, "Bob", "R2"⟩]
    ∧ (issue_book ⟨[⟨1, "T", "A", 2⟩], [⟨1, "Alice", "R1"⟩], [], 2, 2, 1⟩
        "1" "R1" "Carol" "d").1.students = [⟨1, "Alice", "R1"⟩]
    ∧ ∃ l ∈ (issue_book ⟨[⟨1, "T", "A", 2⟩], [⟨1, "Alice", "R1"⟩], [], 2, 2, 1⟩
        "1" "R1" "Carol" "d").1.loans, l.id = 1 ∧ l.student_id = 1 := by
  have h1 := (c8_student_dedup ⟨[⟨1, "T", "A", 2⟩], [⟨1, "Alice", "R1"⟩],
    [], 2, 2, 1⟩ ⟨[⟨1, "T", "A", 1⟩], [⟨1, "Alice", "R1"⟩, ⟨2, "Bob", "R2"⟩],
    [⟨1, 1, 2, "d", none⟩], 2, 3, 2⟩ "1" "R2" "Bob" "d").1
    (by decide) (by decide)
  have h2 := (c8_student_dedup ⟨[⟨1, "T", "A", 2⟩], [⟨1, "Alice", "R1"⟩],
    [], 2, 2, 1⟩ ⟨[⟨1, "T", "A", 2⟩], [⟨1, "Alice", "R1"⟩], [], 2, 2, 1⟩
    "1" "R1" "Carol" "d").2 ⟨1, "Alice", "R1"⟩ (by decide)
  exact ⟨h1, h2.1, h2.2 (by decide)⟩

theorem suffixAny_eq_true (f : List Char → Bool) (t : List Char) :
    suffixAny f t = true ↔ ∃ u v, t = u ++ v ∧ f v = true := by
  induction t with
  | nil =>
    constructor
    · intro h
      exact ⟨[], [], rfl, h⟩
    · intro ⟨u, v, he, hf⟩
      rcases List.append_eq_nil.1 he.symm with ⟨rfl, rfl⟩
      exact hf
  | cons c ts ih =>
    simp only [suffixAny, Bool.or_eq_true, ih]
    constructor
    · intro h
      rcases h with h | ⟨u, v, he, hf⟩
      · exact ⟨[], c :: ts, rfl, h⟩
      · exact ⟨c :: u, v, by rw [he]; rfl, hf⟩
    · intro ⟨u, v, he, hf⟩
      cases u with
      | nil =>
        left
        rw [List.nil_append] at he
        rw [he]
        exact hf
      | cons a u' =>
        right
        rw [List.cons_append] at he
        injection he with h1 h2
        exact ⟨u', v, h2, hf⟩

theorem likeAux_pct (ps t : List Char) :
    likeAux ('%' :: ps) t = true ↔
      ∃ u v, t = u ++ v ∧ likeAux ps v = true := by
  simp only [likeAux, if_pos rfl]
  exact suffixAny_eq_true _ t

theorem likeAux_pct_nil (v : List Char) : likeAux ['%'] v = true :=
  (likeAux_pct [] v).2 ⟨v, [], (List.append_nil v).symm, rfl⟩

theorem likeAux_exact :
    ∀ f : List Char, (∀ c ∈ f, c ≠ '%' ∧ c ≠ '_') →
    ∀ ps t, likeAux (f ++ ps) t = true ↔
      ∃ u v, t = u ++ v ∧ u.map foldAscii = f.map foldAscii ∧
        likeAux ps v = true := by
  intro f
  induction f with
  | nil =>
    intro _ ps t
    simp only [List.nil_append, List.map_nil]
    constructor
    · intro h
      exact ⟨[], t, rfl, rfl, h⟩
    · intro ⟨u, v, he, hu, hv⟩
      rw [List.map_eq_nil_iff] at hu
      subst hu
      rw [List.nil_append] at he
      subst he
      exact hv
  | cons q f' ih =>
    intro hw ps t
    obtain ⟨hq1, hq2⟩ := hw q (List.mem_cons_self q f')
    have hw' : ∀ c ∈ f', c ≠ '%' ∧ c ≠ '_' :=
      fun c hc => hw c (List.mem_cons_of_mem q hc)
    cases t with
    | nil =>
      simp only [List.cons_append, likeAux, if_neg hq1]
      constructor
      · intro h
        exact absurd h (by simp)
      · intro ⟨u, v, he, hu, hv⟩
        rcases List.append_eq_nil.1 he.symm with ⟨rfl, rfl⟩
        simp at hu
    | cons c ts =>
      simp only [List.cons_append, likeAux, if_neg hq1]
      rw [Bool.and_eq_true, Bool.or_eq_true]
      constructor
      · intro ⟨hqc, hrest⟩
        rcases hqc with hqc | hqc
        · exact absurd (by simpa using hqc) hq2
        · obtain ⟨u', v, he, hu, hv⟩ := (ih hw' ps ts).1 hrest
          refine ⟨c :: u', v, by rw [he]; rfl, ?_, hv⟩
          have hfold : foldAscii q = foldAscii c := by simpa using hqc
          simp only [List.map_cons, hu, List.cons.injEq]
          exact ⟨hfold.symm, trivial⟩
      · intro ⟨u, v, he, hu, hv⟩
        cases u with
        | nil => simp at hu
        | cons a u' =>
          rw [List.cons_append] at he
          injection he with he1 he2
          subst he1
          simp only [List.map_cons, List.cons.injEq] at hu
          refine ⟨Or.inr ?_, (ih hw' ps ts).2 ⟨u', v, he2, hu.2, hv⟩⟩
          rw [beq_iff_eq, hu.1]

theorem prefixB_iff (f : List Char) :
    ∀ t, prefixB f t = true ↔ ∃ r, t = f ++ r := by
  induction f with
  | nil =>
    intro t
    simp [prefixB]
  | cons c cs ih =>
    intro t
    cases t with
    | nil => simp [prefixB]
    | cons d ds =>
      simp only [prefixB, Bool.and_eq_true, beq_iff_eq]
      rw [ih ds]
      constructor
      · intro ⟨he, r, hr⟩
        exact ⟨r, by rw [List.cons_append, ← he, ← hr]⟩
      · intro ⟨r, hr⟩
        rw [List.cons_append] at hr
        injection hr with h1 h2
        exact ⟨h1.symm, r, h2⟩

theorem infixB_iff (f : List Char) :
    ∀ t, infixB f t = true ↔ ∃ a b, t = a ++ f ++ b := by
  intro t
  induction t with
  | nil =>
    simp only [infixB]
    rw [prefixB_iff]
    constructor
    · intro ⟨r, hr⟩
      rcases List.append_eq_nil.1 hr.symm with ⟨rfl, rfl⟩
      exact ⟨[], [], rfl⟩
    · intro ⟨a, b, he⟩
      rcases List.append_eq_nil.1 he.symm with ⟨hab, rfl⟩
      rcases List.append_eq_nil.1 hab with ⟨rfl, rfl⟩
      exact ⟨[], rfl⟩
  | cons c ts ih =>
    simp only [infixB, Bool.or_eq_true, prefixB_iff, ih]
    constructor
    · intro h
      rcases h with ⟨r, hr⟩ | ⟨a, b, he⟩
      · exact ⟨[], r, by simpa using hr⟩
      · exact ⟨c :: a, b, by rw [he, List.cons_append, List.cons_append]⟩
    · intro ⟨a, b, he⟩
      cases a with
      | nil => exact Or.inl ⟨b, by simpa using he⟩
      | cons x a' =>
        right
        rw [List.cons_append, List.cons_append] at he
        injection he with h1 h2
        exact ⟨a', b, h2⟩

theorem infixB_nil (t : List Char) : infixB [] t = true := by
  cases t <;> simp [infixB, prefixB]

theorem str_data_append (s₁ s₂ : String) :
    (s₁ ++ s₂).data = s₁.data ++ s₂.data := by
  cases s₁
  cases s₂
  rfl

/-- On wildcard-free filters the LIKE pattern built by load_books agrees
with the ASCII-case-insensitive substring test of the specification. -/
theorem titleLike_eq_containsCI (f t : String)
    (hw : ∀ c ∈ f.data, c ≠ '%' ∧ c ≠ '_') :
    titleLike ("%" ++ f ++ "%") t = containsCI f t := by
  have hd : ("%" ++ f ++ "%").data = '%' :: (f.data ++ ['%']) := by
    rw [str_data_append, str_data_append]
    rfl
  rw [Bool.eq_iff_iff]
  simp only [titleLike, containsCI]
  rw [hd, likeAux_pct, infixB_iff]
  constructor
  · intro ⟨u, v, he, hv⟩
    obtain ⟨u', v', hv', hu', -⟩ := (likeAux_exact f.data hw ['%'] v).1 hv
    refine ⟨u.map foldAscii, v'.map foldAscii, ?_⟩
    rw [he, hv']
    simp [List.map_append, hu', List.append_assoc]
  · intro ⟨a, b, he⟩
    rw [List.append_assoc] at he
    obtain ⟨l₁, l₂, ht, hm₁, hm₂⟩ := List.map_eq_append_iff.1 he
    obtain ⟨l₃, l₄, ht₂, hm₃, hm₄⟩ := List.map_eq_append_iff.1 hm₂
    refine ⟨l₁, l₂, ht, ?_⟩
    exact (likeAux_exact f.data hw ['%'] l₂).2
      ⟨l₃, l₄, ht₂, hm₃, likeAux_pct_nil l₄⟩

theorem listLe_total : ∀ a b : List Char,
    listLe a b = true ∨ listLe b a = true := by
  intro a
  induction a with
  | nil =>
    intro b
    left
    rfl
  | cons c cs ih =>
    intro b
    cases b with
    | nil =>
      right
      rfl
    | cons d ds =>
      simp only [listLe]
      by_cases h1 : c.toNat < d.toNat
      · left
        rw [if_pos h1]
      · by_cases h2 : d.toNat < c.toNat
        · right
          rw [if_pos h2]
        · rcases ih ds with h | h
          · left
            rw [if_neg h1, if_neg h2]
            exact h
          · right
            rw [if_neg h2, if_neg h1]
            exact h

theorem listLe_trans : ∀ a b c : List Char, listLe a b = true →
    listLe b c = true → listLe a c = true := by
  intro a
  induction a with
  | nil =>
    intro b c _ _
    rfl
  | cons x xs ih =>
    intro b c hab hbc
    cases b with
    | nil => simp [listLe] at hab
    | cons y ys =>
      cases c with
      | nil => simp [listLe] at hbc
      | cons z zs =>
        simp only [listLe] at hab hbc ⊢
        by_cases hxy : x.toNat < y.toNat
        · by_cases hyz : y.toNat < z.toNat
          · rw [if_pos (by omega)]
          · by_cases hzy : z.toNat < y.toNat
            · rw [if_neg hyz, if_pos hzy] at hbc
              exact absurd hbc (by simp)
            · rw [if_pos (by omega)]
        · by_cases hyx : y.toNat < x.toNat
          · rw [if_neg hxy, if_pos hyx] at hab
            exact absurd hab (by simp)
          · by_cases hyz : y.toNat < z.toNat
            · rw [if_pos (by omega)]
            · by_cases hzy : z.toNat < y.toNat
              · rw [if_neg hyz, if_pos hzy] at hbc
                exact absurd hbc (by simp)
              · rw [if_neg hxy, if_neg hyx] at hab
                rw [if_neg hyz, if_neg hzy] at hbc
                rw [if_neg (show ¬x.toNat < z.toNat by omega),
                  if_neg (show ¬z.toNat < x.toNat by omega)]
                exact ih ys zs hab hbc

instance : IsTotal Book bookLe :=
  ⟨fun a b => listLe_total a.title.data b.title.data⟩

instance : IsTrans Book bookLe :=
  ⟨fun a b c hab hbc => listLe_trans a.title.data b.title.data c.title.data
    hab hbc⟩

/-- C9 counterexample: the SQL LIKE pattern treats an underscore in the
filter as a one-character wildcard.  With the single book titled A and the
filter consisting of one underscore, load_books returns the book although
its title does not contain the filter as a (case-insensitive) substring,
so the result is not the set the claim describes. -/
theorem c9_counterexample :
    load_books ⟨[⟨1, "A", "B", 1⟩], [], [], 2, 1, 1⟩ "_" = [⟨1, "A", "B", 1⟩]
    ∧ containsCI "_" "A" = false := by
  decide

/-- C9 amended: for every filter free of the LIKE wildcards percent and
underscore (the empty filter included), load_books returns exactly the
books whose title contains the filter as an ASCII-case-insensitive
substring, sorted by title ascending in the byte order used by the
database; load_books reads the table and never modifies it (it is a pure
query in this embedding). -/
theorem c9_search_books :
    ∀ st : DB, ∀ f : String,
      (∀ c ∈ f.data, c ≠ '%' ∧ c ≠ '_') →
      (load_books st f).Perm
        (st.books.filter (fun b => containsCI f b.title))
      ∧ List.Sorted bookLe (load_books st f) := by
  intro st f hw
  constructor
  · unfold load_books
    by_cases hf : f = ""
    · rw [if_pos hf]
      have he : st.books.filter (fun b => containsCI f b.title) = st.books := by
        have : ∀ b ∈ st.books, (containsCI f b.title) = (fun _ : Book => true) b := by
          intro b _
          subst hf
          exact infixB_nil _
        rw [List.filter_congr this, List.filter_true]
      rw [he]
      exact List.perm_insertionSort bookLe st.books
    · rw [if_neg hf]
      have : ∀ b ∈ st.books,
          (titleLike ("%" ++ f ++ "%") b.title) = (containsCI f b.title) :=
        fun b _ => titleLike_eq_containsCI f b.title hw
      rw [List.filter_congr this]
      exact List.perm_insertionSort bookLe _
  · unfold load_books
    split
    · exact List.sorted_insertionSort bookLe _
    · exact List.sorted_insertionSort bookLe _

/-- Witness for c9_search_books at concrete inputs. -/
theorem c9_search_books_witness :
    (load_books ⟨[⟨1, "b", "x", 1⟩, ⟨2, "Abc", "y", 2⟩], [], [], 3, 1, 1⟩
      "B").Perm
      (([⟨1, "b", "x", 1⟩, ⟨2, "Abc", "y", 2⟩] : List Book).filter
        (fun b => containsCI "B" b.title))
    ∧ List.Sorted bookLe
      (load_books ⟨[⟨1, "b", "x", 1⟩, ⟨2, "Abc", "y", 2⟩], [], [], 3, 1, 1⟩
        "B") :=
  c9_search_books ⟨[⟨1, "b", "x", 1⟩, ⟨2, "Abc", "y", 2⟩], [], [], 3, 1, 1⟩
    "B" (by decide)

end LibraryApp
